import Mathlib

/-!
Verification of the mcp-council deliberation engine.

This file gives a shallow embedding of the round logic of the repository
(`src/orchestrator.ts`, the candidate pool, the resilient-save layer of
`src/db.ts` and the LLM provider JSON parsing loop) and proves or refutes
the specification claims about it.  Agent (LLM) answers and the partition
of concurrent agent calls into successes and retry-exhausted failures are
passed in as explicit parameters, exactly as `resilientParallel` hands
them to the orchestrator.
-/

namespace Council

/-- JavaScript array indexing `xs[i]`: an out-of-range or negative index
yields `undefined`, modelled as `none`. -/
def jsIndex {α : Type} (xs : List α) (i : Int) : Option α :=
  if h : 0 ≤ i ∧ i.toNat < xs.length then some (xs.get ⟨i.toNat, h.2⟩) else none

/-- Models the JavaScript expression `s || null` on an optional string:
the empty string is falsy, so it collapses to `null` as well. -/
def jsOrNull (s : Option String) : Option String :=
  match s with
  | some v => if v = "" then none else some v
  | none => none

instance {ε α : Type} [DecidableEq ε] [DecidableEq α] : DecidableEq (Except ε α)
  | .error a, .error b =>
    if h : a = b then isTrue (by rw [h])
    else isFalse (fun hc => h (by cases hc; rfl))
  | .error _, .ok _ => isFalse (fun hc => by cases hc)
  | .ok _, .error _ => isFalse (fun hc => by cases hc)
  | .ok a, .ok b =>
    if h : a = b then isTrue (by rw [h])
    else isFalse (fun hc => h (by cases hc; rfl))

/-- Structure `Proposal` from src/orchestrator.ts. -/
structure Proposal where
  memberId : String
  content : String
  reasoning : String
deriving DecidableEq, Repr

/-- Structure `Vote` from src/orchestrator.ts; abstain is `proposalMemberId = none`. -/
structure Vote where
  voterId : String
  proposalMemberId : Option String
  reasoning : String
deriving DecidableEq, Repr

/-- Structure `EvictionNomination` from src/orchestrator.ts. -/
structure EvictionNomination where
  nominatorId : String
  nomineeId : Option String
  reasoning : String
deriving DecidableEq, Repr

/-- Structure `TieBreakExplanation` from src/orchestrator.ts. -/
structure TieBreakExplanation where
  tiedProposals : List Proposal
  decision : String
  reasoning : String
deriving DecidableEq, Repr

/-- Structure `CouncilState` from src/db.ts (the singleton roster record). -/
structure CouncilState where
  memberIds : List String
  candidateIds : List String
  targetPoolSize : Nat
  roundsSinceEviction : Nat
  lastRemovalCauses : List String
  removalHistorySummary : Option String
deriving DecidableEq, Repr

/-- The JSON answer an agent returns for a selection-round ballot
(`{ vote: number | null, reasoning }`). -/
structure VoteResponse where
  vote : Option Int
  reasoning : String
deriving DecidableEq, Repr

/-- The ballot view of one voter: the proposal list with the proposals
authored by the voter filtered out (`selectProposal` and `collectVotes`
both build this list). -/
def otherProposals (proposals : List Proposal) (voterId : String) : List Proposal :=
  proposals.filter (fun p => p.memberId ≠ voterId)

/-- Function `Orchestrator.selectProposal`, decoding of one council ballot
(src/orchestrator.ts lines 262-306): when the filtered list is empty the
member abstains without an agent call; otherwise the returned index is
looked up in the FULL proposal list (`proposals[response.vote - 1]`) and
a hit on the voter itself is coerced to abstain. -/
def decodeCouncilVote (proposals : List Proposal) (memberId : String)
    (response : VoteResponse) : Vote :=
  if (otherProposals proposals memberId).isEmpty then
    { voterId := memberId, proposalMemberId := none
      reasoning := "No other proposals to vote on" }
  else
    let votedProposal : Option Proposal :=
      match response.vote with
      | some v => jsIndex proposals (v - 1)
      | none => none
    let validVote : Option String :=
      match votedProposal with
      | some p => if p.memberId ≠ memberId then some p.memberId else none
      | none => none
    { voterId := memberId, proposalMemberId := validVote
      reasoning := response.reasoning }

/-- Function `CandidatePool.collectVotes`, decoding of one practice-round ballot
(candidate pool source lines 454-513): the returned index is looked up in
the FILTERED list (`otherProposals[response.vote - 1]`) and the hit, if
any, becomes the vote target (`votedProposal?.memberId || null`). -/
def decodeCandidateVote (proposals : List Proposal) (candidateId : String)
    (response : VoteResponse) : Vote :=
  let others := otherProposals proposals candidateId
  if others.isEmpty then
    { voterId := candidateId, proposalMemberId := none
      reasoning := "No other proposals" }
  else
    let votedProposal : Option Proposal :=
      match response.vote with
      | some v => jsIndex others (v - 1)
      | none => none
    { voterId := candidateId
      proposalMemberId := jsOrNull (votedProposal.map Proposal.memberId)
      reasoning := response.reasoning }

/-- The valid (counted) targets of a vote list: the code guard
`if (vote.proposalMemberId)` skips both `null` and the falsy empty
string, so only non-null non-empty targets are tallied. -/
def validVoteTargets (votes : List Vote) : List String :=
  votes.filterMap (fun v =>
    match v.proposalMemberId with
    | some pid => if pid = "" then none else some pid
    | none => none)

/-- Number of counted votes for one proposal author
(the `voteCounts` map of `tallyVotesAndFindWinner`). -/
def voteCount (votes : List Vote) (pid : String) : Nat :=
  (validVoteTargets votes).count pid

/-- The running maximum `maxVotes` of `tallyVotesAndFindWinner`: the
largest tally reached by any counted vote target. -/
def maxVotes (votes : List Vote) : Nat :=
  ((validVoteTargets votes).map (voteCount votes)).foldr max 0

/-- The `winners` list of `tallyVotesAndFindWinner`: proposals whose
tally equals the maximum, provided the maximum is nonzero. -/
def winnersOf (votes : List Vote) (proposals : List Proposal) : List Proposal :=
  if 0 < maxVotes votes then
    proposals.filter (fun p => voteCount votes p.memberId = maxVotes votes)
  else []

/-- The arbitration answer used by `Orchestrator.breakTie`: `none` models
a JSON body the provider could not parse even after its correction
retries (`OpenAIProvider.json` throws in that case), `some sel` a parsed
`{ selection: sel }` object. -/
abbrev ArbAnswer := Option Int

/-- Function `Orchestrator.breakTie` (src/orchestrator.ts lines 378-419): empty
input throws, a singleton is returned without an agent call, otherwise
one agent call is made and `proposals[response.selection - 1] ||
proposals[0]` picks the winner, falling back to the first element on any
out-of-range index.  A persistent JSON parse failure propagates as an
error from `OpenAIProvider.json`. -/
def breakTie (proposals : List Proposal) (arb : ArbAnswer) :
    Except String Proposal :=
  match proposals with
  | [] => .error "No proposals to choose from"
  | [p] => .ok p
  | p :: rest =>
    match arb with
    | none => .error "Failed to parse JSON after 3 attempts"
    | some sel => .ok ((jsIndex (p :: rest) (sel - 1)).getD p)

/-- Number of `llm.json` arbitration calls `breakTie` performs: the
source awaits `this.llm.json` exactly once, and only after the empty and
singleton early returns. -/
def breakTieAgentCalls (proposals : List Proposal) : Nat :=
  match proposals with
  | [] => 0
  | [_] => 0
  | _ :: _ :: _ => 1

/-- Function `Orchestrator.tallyVotesAndFindWinner` (src/orchestrator.ts lines
325-373): a unique maximum wins outright; zero winners (all abstained)
delegates the FULL proposal list to `breakTie`; two or more winners
delegate the tied winners. -/
def tallyVotesAndFindWinner (votes : List Vote) (proposals : List Proposal)
    (arb : ArbAnswer) : Except String (Proposal × Option TieBreakExplanation) :=
  match winnersOf votes proposals with
  | [w] => .ok (w, none)
  | [] =>
    match breakTie proposals arb with
    | .error e => .error e
    | .ok w => .ok (w, some
        { tiedProposals := proposals
          decision := w.memberId
          reasoning := "All members abstained, orchestrator selected best fit" })
  | w1 :: w2 :: ws =>
    match breakTie (w1 :: w2 :: ws) arb with
    | .error e => .error e
    | .ok w => .ok (w, some
        { tiedProposals := w1 :: w2 :: ws
          decision := w.memberId
          reasoning := "Tied at " ++ toString (maxVotes votes) ++
            " votes each, orchestrator selected" })

/-- The two ways `Orchestrator.vote` can reject: the aggregated
zero-proposals error thrown at line 125, or an error propagated from the
tie-arbitration agent call (not caught anywhere in `vote`). -/
inductive VoteError where
  | allProposalsFailed (messages : List String)
  | tieArbitrationFailed (message : String)
deriving DecidableEq, Repr

/-- Error and result flow of `Orchestrator.vote` (src/orchestrator.ts
lines 107-172).  The per-round partitions produced by
`resilientParallel` are parameters: `proposals`/`proposalErrors` from
round 1, `votes`/`voteErrors` from round 2, `evictionErrors` from round 3.
The code renders the aggregated error by joining the messages with `; `;
here the error carries the message list itself.  Returned on success is
the winner, the optional tie break and the `errors` field of the
`VoteResult`. -/
def voteFlow (proposals : List Proposal) (proposalErrors : List String)
    (votes : List Vote) (voteErrors : List String) (arb : ArbAnswer)
    (evictionErrors : List String) :
    Except VoteError (Proposal × Option TieBreakExplanation × List String) :=
  if proposals.isEmpty then
    .error (.allProposalsFailed proposalErrors)
  else
    match tallyVotesAndFindWinner votes proposals arb with
    | .error e => .error (.tieArbitrationFailed e)
    | .ok (w, tb) =>
      .ok (w, tb, proposalErrors ++ voteErrors ++ evictionErrors)

/-- Constant `SUPERMAJORITY_THRESHOLD` from src/orchestrator.ts: a fixed absolute
count, independent of the council size. -/
def SUPERMAJORITY_THRESHOLD : Nat := 6

/-- Nominations counted against one member in
`Orchestrator.processEvictions`: the guard `if (nom.nomineeId)` skips
`null` and the falsy empty string. -/
def nominationsFor (noms : List EvictionNomination) (memberId : String) :
    List EvictionNomination :=
  noms.filter (fun n => n.nomineeId = some memberId ∧ memberId ≠ "")

/-- The `evicted` flag of an `EvictionResult` in
`Orchestrator.processEvictions` (lines 483-492): a member appears in the
results map only with at least one nomination, and its flag is
`noms.length >= SUPERMAJORITY_THRESHOLD`. -/
def councilEvicted (noms : List EvictionNomination) (memberId : String) : Bool :=
  SUPERMAJORITY_THRESHOLD ≤ (nominationsFor noms memberId).length

/-- Count `totalVotes` of `CandidatePool.processEvictions`:
`votes.filter((v) => v.proposalMemberId).length`. -/
def totalVotesCast (votes : List Vote) : Nat :=
  (validVoteTargets votes).length

/-- The `shielded` set of `CandidatePool.processEvictions`: share of
votes received over votes cast at or above `NULLIFICATION_THRESHOLD`
(0.75).  The float comparison `count / totalVotes >= 0.75` is exact for
the small integer tallies involved, so it is modelled as
`4 * count >= 3 * totalVotes` (with a cast-votes total of zero nothing
is shielded). -/
def isShielded (votes : List Vote) (candidateId : String) : Bool :=
  0 < totalVotesCast votes ∧
    3 * totalVotesCast votes ≤ 4 * voteCount votes candidateId

/-- Nominations counted against one candidate in
`CandidatePool.processEvictions`: nominations naming a shielded nominee
are dropped before tallying (`if (nom.nomineeId && !shielded.has(...))`). -/
def candidateNominationCount (noms : List EvictionNomination)
    (votes : List Vote) (nomineeId : String) : Nat :=
  (noms.filter (fun n =>
    n.nomineeId = some nomineeId ∧ nomineeId ≠ "" ∧
      isShielded votes nomineeId = false)).length

/-- The simple majority threshold `Math.ceil(candidates.length / 2)`. -/
def simpleMajority (population : Nat) : Nat := (population + 1) / 2

/-- Whether a candidate ends in the `evicted` list of
`CandidatePool.processEvictions` (candidate pool source lines 581-626):
it must appear in the nomination-count map (at least one counted
nomination) with a count at or above the simple majority of the current
candidate population. -/
def candidateEvicted (noms : List EvictionNomination) (votes : List Vote)
    (population : Nat) (candidateId : String) : Bool :=
  0 < candidateNominationCount noms votes candidateId ∧
    simpleMajority population ≤ candidateNominationCount noms votes candidateId

/-- Function `Orchestrator.adjustPoolSize` (src/orchestrator.ts lines 790-799). -/
def adjustPoolSize (state : CouncilState) (hadEviction : Bool) : CouncilState :=
  if hadEviction then
    { state with targetPoolSize := min 20 (state.targetPoolSize + 1) }
  else if 10 ≤ state.roundsSinceEviction then
    { state with targetPoolSize := max 3 (state.targetPoolSize - 1)
                 roundsSinceEviction := 0 }
  else state

/-- The end-of-vote state update of `Orchestrator.vote` (lines 155-161):
`roundsSinceEviction` is reset or incremented first, then
`adjustPoolSize` runs on the updated state. -/
def postVoteStateUpdate (state : CouncilState) (hadEviction : Bool) : CouncilState :=
  adjustPoolSize
    { state with roundsSinceEviction :=
        if hadEviction then 0 else state.roundsSinceEviction + 1 }
    hadEviction

/-- Roster effect of `Orchestrator.demoteMember` (lines 539-572) when the
member record exists: the member id is removed from `memberIds` and
PUSHED ONTO `candidateIds` (the demoted member instantly joins the
pool). -/
def demoteMemberState (state : CouncilState) (memberId : String) : CouncilState :=
  { state with memberIds := state.memberIds.filter (fun id => id ≠ memberId)
               candidateIds := state.candidateIds ++ [memberId] }

/-- Roster effect of `Orchestrator.promoteCandidate` (lines 714-738) when
the candidate record exists. -/
def promoteCandidateState (state : CouncilState) (candidateId : String) : CouncilState :=
  { state with candidateIds := state.candidateIds.filter (fun id => id ≠ candidateId)
               memberIds := state.memberIds ++ [candidateId] }

/-- One successful weighted promotion ballot
(`Orchestrator.runPromotionVote`). -/
structure PromotionVote where
  voterId : String
  candidateId : String
  weight : Nat
deriving DecidableEq, Repr

/-- Function `Orchestrator.getPromotionVote` (lines 670-709): throws when the
ballot list is empty (modelled as `none`, which `resilientParallel`
turns into a dropped failure), otherwise decodes
`candidates[response.vote - 1]?.id || candidates[0].id`, where the `||`
fallback catches both an out-of-range index and a falsy (empty) id. -/
def getPromotionVote (candidateIds : List String) (vote : Int) : Option String :=
  match candidateIds with
  | [] => none
  | c :: cs =>
    some (match jsIndex (c :: cs) (vote - 1) with
      | some x => if x = "" then c else x
      | none => c)

/-- Promotion ballot of one remaining council member in
`runPromotionVote` (weight 2, full candidate list); `none` models a
ballot dropped by `resilientParallel` (failed agent call or the
`getPromotionVote` throw on an empty list). -/
def memberBallot (candidateIds : List String)
    (memberResponses : String → Option Int) (m : String) :
    Option PromotionVote :=
  match memberResponses m with
  | some v => (getPromotionVote candidateIds v).map
      (fun c => { voterId := m, candidateId := c, weight := 2 })
  | none => none

/-- Promotion ballot of one pool candidate in `runPromotionVote`
(weight 1, candidate list with itself filtered out). -/
def candidateBallot (candidateIds : List String)
    (candidateResponses : String → Option Int) (cand : String) :
    Option PromotionVote :=
  match candidateResponses cand with
  | some v => (getPromotionVote (candidateIds.filter (fun x => x ≠ cand)) v).map
      (fun c => { voterId := cand, candidateId := c, weight := 1 })
  | none => none

/-- The successful promotion ballots collected by `runPromotionVote`
(lines 591-627): each remaining member votes over the full candidate
list with weight 2, each candidate votes over the list with itself
filtered out with weight 1; a voter whose agent call exhausted its
retries, or whose ballot list is empty so that `getPromotionVote`
throws, contributes nothing. -/
def buildPromotionBallots (memberIds candidateIds : List String)
    (memberResponses candidateResponses : String → Option Int) :
    List PromotionVote :=
  memberIds.filterMap (memberBallot candidateIds memberResponses) ++
    candidateIds.filterMap (candidateBallot candidateIds candidateResponses)

/-- Weighted tally of `runPromotionVote` (`voteCounts` map). -/
def weightedCount (ballots : List PromotionVote) (candidateId : String) : Nat :=
  (ballots.filter (fun b => b.candidateId = candidateId)).foldr
    (fun b acc => b.weight + acc) 0

/-- Insertion order of the `voteCounts` map: candidate ids in order of
their first ballot (a JavaScript `Map` iterates keys in insertion
order). -/
def firstOccurrences (l : List String) : List String :=
  l.foldl (fun acc x => if x ∈ acc then acc else acc ++ [x]) []

/-- The winner-scan loop of `runPromotionVote` (lines 639-648): walk the
tally map in insertion order keeping the maximum and the list of ids
tied at it. -/
def promotionWinnerScan (counts : String → Nat) (order : List String) :
    Nat × List String :=
  order.foldl (fun mw id =>
    if counts id > mw.1 then (counts id, [id])
    else if counts id = mw.1 then (mw.1, mw.2 ++ [id])
    else mw) (0, [])

/-- The fitness tie-break of `runPromotionVote` (lines 651-663): a stable
descending sort by fitness followed by taking the head, which is the
first id attaining the maximal fitness. -/
def maxFitnessFirst (fitness : String → Int) : List String → Option String
  | [] => none
  | x :: xs => some (xs.foldl (fun best y =>
      if fitness y > fitness best then y else best) x)

/-- Function `Orchestrator.runPromotionVote` (lines 577-668): returns `none`
without a single agent call only when `candidateIds` is empty AT CALL
TIME; otherwise it collects ballots, tallies, resolves ties by persisted
fitness, promotes the winner (mutating the roster state) and returns the
winner id.  When every ballot fails the source crashes dereferencing
`sorted[0]`, modelled as an error. -/
def runPromotionVote (state : CouncilState)
    (memberResponses candidateResponses : String → Option Int)
    (fitness : String → Int) :
    Except String (CouncilState × Option String) :=
  if state.candidateIds.isEmpty then .ok (state, none)
  else
    let ballots := buildPromotionBallots state.memberIds state.candidateIds
      memberResponses candidateResponses
    let order := firstOccurrences (ballots.map PromotionVote.candidateId)
    let winners := (promotionWinnerScan (weightedCount ballots) order).2
    match winners with
    | [w] => .ok (promoteCandidateState state w, some w)
    | ws =>
      match maxFitnessFirst fitness ws with
      | none => .error "TypeError: sorted[0] is undefined"
      | some w => .ok (promoteCandidateState state w, some w)

/-- The eviction-processing slice of `Orchestrator.processEvictions`
(lines 494-528) for one evicted member: demote, then immediately run the
promotion sub-vote on the mutated state; a non-falsy winner id is
recorded as the replacement. -/
def evictAndBackfill (state : CouncilState) (memberId : String)
    (memberResponses candidateResponses : String → Option Int)
    (fitness : String → Int) :
    Except String (CouncilState × Option String) :=
  match runPromotionVote (demoteMemberState state memberId)
      memberResponses candidateResponses fitness with
  | .error e => .error e
  | .ok (s, replacement) => .ok (s, jsOrNull replacement)

/-- The Deno KV cell holding the roster id list, with its versionstamp:
every successful `atomic().check(version).set(...).commit()` bumps the
version (`CouncilDB.saveMember`, src/db.ts lines 117-132; `saveCandidate`
is textually identical over `candidateIds`). -/
structure KVState where
  ids : List String
  version : Nat
deriving DecidableEq, Repr

/-- Constant `MAX_RETRIES` of `CouncilDB`. -/
def KV_MAX_RETRIES : Nat := 10

/-- Control point of one in-flight `saveMember` call: about to read the
state, or holding a read snapshot and about to attempt the conditional
commit, or returned, or thrown after exhausting `MAX_RETRIES`. -/
inductive WriterPhase where
  | toRead
  | toCommit (snapshot : List String) (snapVersion : Nat)
  | done
  | failed
deriving DecidableEq, Repr

/-- One concurrent `saveMember(member)` call. -/
structure Writer where
  id : String
  phase : WriterPhase
  attemptsLeft : Nat
deriving DecidableEq, Repr

/-- A fresh `saveMember` call for one id. -/
def Writer.start (id : String) : Writer :=
  { id := id, phase := .toRead, attemptsLeft := KV_MAX_RETRIES }

/-- One atomic step of one `saveMember` call against the store, following
the loop body of `CouncilDB.saveMember`: a read takes a snapshot of
`(state, versionstamp)` (or throws once the attempt budget is spent); a
commit appends the id if absent and succeeds exactly when the version is
unchanged, otherwise the call loops back to the read with one fewer
attempt. -/
def saveStep (kv : KVState) (w : Writer) : KVState × Writer :=
  match w.phase with
  | .toRead =>
    if w.attemptsLeft = 0 then (kv, { w with phase := .failed })
    else (kv, { w with phase := .toCommit kv.ids kv.version })
  | .toCommit snapshot snapVersion =>
    let updated := if w.id ∈ snapshot then snapshot else snapshot ++ [w.id]
    if snapVersion = kv.version then
      ({ ids := updated, version := kv.version + 1 },
        { w with phase := .done, attemptsLeft := w.attemptsLeft - 1 })
    else
      (kv, { w with phase := .toRead, attemptsLeft := w.attemptsLeft - 1 })
  | .done => (kv, w)
  | .failed => (kv, w)

/-- The whole system: the store plus all in-flight `saveMember` calls. -/
structure KVSystem where
  kv : KVState
  writers : List Writer
deriving DecidableEq, Repr

/-- Let writer `i` take its next step (an out-of-range index is a
no-op). -/
def schedStep (s : KVSystem) (i : Nat) : KVSystem :=
  match s.writers.get? i with
  | none => s
  | some w =>
    { kv := (saveStep s.kv w).1, writers := s.writers.set i (saveStep s.kv w).2 }

/-- Run an explicit interleaving of the concurrent calls. -/
def runSchedule (s : KVSystem) (schedule : List Nat) : KVSystem :=
  schedule.foldl schedStep s

/-- The initial system: the current store content plus one fresh
`saveMember` call per id. -/
def startSystem (initialIds : List String) (ids : List String) : KVSystem :=
  { kv := { ids := initialIds, version := 0 }
    writers := ids.map Writer.start }

/-- C2: in a council selection round no decoded ballot ever counts a
self-vote: the recorded `Vote` carries the voter id, never targets the
voter itself, and whenever the returned index lands on the own
proposal the vote is coerced to abstain. -/
theorem selection_no_self_votes (proposals : List Proposal) (memberId : String)
    (response : VoteResponse) :
    (decodeCouncilVote proposals memberId response).voterId = memberId ∧
    (decodeCouncilVote proposals memberId response).proposalMemberId ≠ some memberId ∧
    (∀ k p, response.vote = some k → jsIndex proposals (k - 1) = some p →
      p.memberId = memberId →
      (decodeCouncilVote proposals memberId response).proposalMemberId = none) := by
  unfold decodeCouncilVote
  split
  · exact ⟨rfl, by simp, fun k p _ _ _ => rfl⟩
  · refine ⟨rfl, ?_, ?_⟩
    · cases hv : response.vote with
      | none => simp [hv]
      | some v =>
        simp only [hv]
        cases hj : jsIndex proposals (v - 1) with
        | none => simp
        | some p =>
          by_cases hp : p.memberId = memberId <;> simp [hp]
    · intro k p hk hp hpm
      simp [hk, hp, hpm]

/-- C2 witness: a concrete council ballot whose index points at the
own proposal of the voter decodes to abstain. -/
theorem selection_no_self_votes_witness :
    (decodeCouncilVote
      [{ memberId := "m1", content := "a", reasoning := "ra" },
       { memberId := "m2", content := "b", reasoning := "rb" }]
      "m1" { vote := some 1, reasoning := "mine" }).proposalMemberId = none :=
  (selection_no_self_votes _ "m1" _).2.2 1
    { memberId := "m1", content := "a", reasoning := "ra" } rfl (by decide) rfl

/-- C8: the end-of-vote pool-size update.  A round with an eviction bumps
`targetPoolSize` by one capped at 20 and resets the eviction-free
counter; an eviction-free round increments the counter, and the round on
which the counter reaches 10 drops `targetPoolSize` by one floored at 3
and resets the counter (the counter never exceeds 9 at entry, which the
hypothesis records). -/
theorem pool_size_update (state : CouncilState) (hadEviction : Bool)
    (hcounter : state.roundsSinceEviction ≤ 9) :
    (hadEviction = true →
      (postVoteStateUpdate state hadEviction).targetPoolSize =
        min 20 (state.targetPoolSize + 1) ∧
      (postVoteStateUpdate state hadEviction).roundsSinceEviction = 0) ∧
    (hadEviction = false → state.roundsSinceEviction + 1 = 10 →
      (postVoteStateUpdate state hadEviction).targetPoolSize =
        max 3 (state.targetPoolSize - 1) ∧
      (postVoteStateUpdate state hadEviction).roundsSinceEviction = 0) ∧
    (hadEviction = false → state.roundsSinceEviction + 1 < 10 →
      (postVoteStateUpdate state hadEviction).targetPoolSize =
        state.targetPoolSize ∧
      (postVoteStateUpdate state hadEviction).roundsSinceEviction =
        state.roundsSinceEviction + 1) := by
  refine ⟨fun h => ?_, fun h h10 => ?_, fun h h10 => ?_⟩
  · subst h
    simp [postVoteStateUpdate, adjustPoolSize]
  · subst h
    simp only [postVoteStateUpdate, adjustPoolSize, if_neg Bool.false_ne_true]
    rw [if_pos (by omega)]
    exact ⟨rfl, rfl⟩
  · subst h
    simp only [postVoteStateUpdate, adjustPoolSize, if_neg Bool.false_ne_true]
    rw [if_neg (by omega)]
    exact ⟨rfl, rfl⟩

/-- C8 witness: at a counter of 9 an eviction-free round drops the target
from 5 to 4, and an eviction round caps the bump against 20. -/
theorem pool_size_update_witness :
    ((postVoteStateUpdate
        { memberIds := [], candidateIds := [], targetPoolSize := 5,
          roundsSinceEviction := 9, lastRemovalCauses := [],
          removalHistorySummary := none } false).targetPoolSize = max 3 (5 - 1) ∧
      (postVoteStateUpdate
        { memberIds := [], candidateIds := [], targetPoolSize := 5,
          roundsSinceEviction := 9, lastRemovalCauses := [],
          removalHistorySummary := none } false).roundsSinceEviction = 0) ∧
    ((postVoteStateUpdate
        { memberIds := [], candidateIds := [], targetPoolSize := 20,
          roundsSinceEviction := 0, lastRemovalCauses := [],
          removalHistorySummary := none } true).targetPoolSize = min 20 (20 + 1) ∧
      (postVoteStateUpdate
        { memberIds := [], candidateIds := [], targetPoolSize := 20,
          roundsSinceEviction := 0, lastRemovalCauses := [],
          removalHistorySummary := none } true).roundsSinceEviction = 0) :=
  ⟨(pool_size_update _ false (by decide)).2.1 rfl rfl,
   (pool_size_update _ true (by decide)).1 rfl⟩

lemma candidateNominationCount_of_not_shielded (noms : List EvictionNomination)
    (votes : List Vote) (candidateId : String)
    (h : isShielded votes candidateId = false) :
    candidateNominationCount noms votes candidateId =
      (nominationsFor noms candidateId).length := by
  unfold candidateNominationCount nominationsFor
  congr 1
  apply List.filter_congr
  intro n _
  simp [h]

lemma candidateNominationCount_of_shielded (noms : List EvictionNomination)
    (votes : List Vote) (candidateId : String)
    (h : isShielded votes candidateId = true) :
    candidateNominationCount noms votes candidateId = 0 := by
  unfold candidateNominationCount
  simp only [List.length_eq_zero, List.filter_eq_nil_iff]
  intro n _
  simp [h]

/-- C6: eviction thresholds.  The `evicted` flag of a council member is
`nominations >= 6`, a fixed absolute supermajority with no dependence on
the council size; a practice-round candidate is evicted exactly when it
is not shielded and its nomination count reaches the simple majority
`ceil(population / 2)` of the current candidate population, so 4
candidates need only 2 nominations. -/
theorem eviction_thresholds (noms : List EvictionNomination) (votes : List Vote)
    (memberId candidateId : String) (population : Nat)
    (hpop : 1 ≤ population) :
    (councilEvicted noms memberId = true ↔
      6 ≤ (nominationsFor noms memberId).length) ∧
    (candidateEvicted noms votes population candidateId = true ↔
      (isShielded votes candidateId = false ∧
        simpleMajority population ≤ (nominationsFor noms candidateId).length)) ∧
    simpleMajority 4 = 2 ∧ SUPERMAJORITY_THRESHOLD = 6 := by
  refine ⟨by simp [councilEvicted, SUPERMAJORITY_THRESHOLD], ?_, rfl, rfl⟩
  unfold candidateEvicted
  cases hs : isShielded votes candidateId with
  | false =>
    rw [candidateNominationCount_of_not_shielded noms votes candidateId hs]
    have hmaj : 1 ≤ simpleMajority population := by
      unfold simpleMajority
      omega
    simp only [decide_eq_true_eq, true_and]
    constructor
    · rintro ⟨-, h2⟩
      exact h2
    · intro h2
      exact ⟨by omega, h2⟩
  | true =>
    rw [candidateNominationCount_of_shielded noms votes candidateId hs]
    simp [hs]

/-- A concrete nomination against one nominee, used by the witnesses. -/
def nomAgainst (nomineeId : String) : EvictionNomination :=
  { nominatorId := "x", nomineeId := some nomineeId, reasoning := "r" }

/-- A concrete counted vote, used by the witnesses. -/
def voteFor (voterId targetId : String) : Vote :=
  { voterId := voterId, proposalMemberId := some targetId, reasoning := "r" }

/-- C6 witness: with 4 candidates and no shield, 2 nominations against a
candidate evict it, while 5 nominations never evict a council member and
6 always do. -/
theorem eviction_thresholds_witness :
    councilEvicted (List.replicate 5 (nomAgainst "m8")) "m8" = false ∧
    councilEvicted (List.replicate 6 (nomAgainst "m8")) "m8" = true ∧
    candidateEvicted (List.replicate 2 (nomAgainst "c4")) [] 4 "c4" = true := by
  have h5 := (eviction_thresholds (List.replicate 5 (nomAgainst "m8")) []
    "m8" "c4" 4 (by decide)).1
  have h6 := (eviction_thresholds (List.replicate 6 (nomAgainst "m8")) []
    "m8" "c4" 4 (by decide)).1
  have hc := (eviction_thresholds (List.replicate 2 (nomAgainst "c4")) []
    "m8" "c4" 4 (by decide)).2.1
  refine ⟨?_, h6.mpr (by decide), hc.mpr (by decide)⟩
  cases h : councilEvicted (List.replicate 5 (nomAgainst "m8")) "m8"
  · rfl
  · exact absurd (h5.mp h) (by decide)

/-- C7: nullification shielding.  A candidate whose share of the counted
votes in the SAME practice round reaches 75 percent (`4 * received >=
3 * cast` with a nonzero cast total) is never evicted in that round,
whatever its nomination count. -/
theorem nullification_shield (noms : List EvictionNomination)
    (votes : List Vote) (population : Nat) (candidateId : String)
    (hcast : 0 < totalVotesCast votes)
    (hshare : 3 * totalVotesCast votes ≤ 4 * voteCount votes candidateId) :
    candidateEvicted noms votes population candidateId = false := by
  have hs : isShielded votes candidateId = true := by
    unfold isShielded
    simp [hcast, hshare]
  unfold candidateEvicted
  rw [candidateNominationCount_of_shielded noms votes candidateId hs]
  simp

/-- C7 witness: a candidate receiving 3 of 4 cast votes survives
unanimous nomination by its 4 peers. -/
theorem nullification_shield_witness :
    candidateEvicted (List.replicate 4 (nomAgainst "c1"))
      [voteFor "c2" "c1", voteFor "c3" "c1", voteFor "c4" "c1",
        voteFor "c1" "c2"] 4 "c1" = false :=
  nullification_shield _ _ 4 "c1" (by decide) (by decide)

lemma le_foldr_max {l : List Nat} {x : Nat} (hx : x ∈ l) :
    x ≤ l.foldr max 0 := by
  induction l with
  | nil => cases hx
  | cons a l ih =>
    rcases List.mem_cons.mp hx with rfl | h
    · exact le_max_left _ _
    · exact le_trans (ih h) (le_max_right _ _)

lemma foldr_max_mem {l : List Nat} (h : l.foldr max 0 ≠ 0) :
    l.foldr max 0 ∈ l := by
  induction l with
  | nil => simp at h
  | cons a l ih =>
    simp only [List.foldr_cons] at h ⊢
    rcases le_total (l.foldr max 0) a with hle | hle
    · rw [max_eq_left hle]
      exact List.mem_cons_self _ _
    · rw [max_eq_right hle] at h ⊢
      exact List.mem_cons_of_mem _ (ih h)

lemma voteCount_pos_iff {votes : List Vote} {pid : String} :
    0 < voteCount votes pid ↔ pid ∈ validVoteTargets votes := by
  unfold voteCount
  exact List.count_pos_iff

lemma voteCount_le_maxVotes {votes : List Vote} {pid : String}
    (h : pid ∈ validVoteTargets votes) :
    voteCount votes pid ≤ maxVotes votes :=
  le_foldr_max (List.mem_map_of_mem _ h)

lemma exists_maxVotes_attained (votes : List Vote) (h : maxVotes votes ≠ 0) :
    ∃ pid ∈ validVoteTargets votes, voteCount votes pid = maxVotes votes := by
  have hmem := foldr_max_mem (l := (validVoteTargets votes).map (voteCount votes)) h
  obtain ⟨pid, hpid, heq⟩ := List.mem_map.mp hmem
  exact ⟨pid, hpid, heq⟩

/-- Characterization of the winner set computed by
`tallyVotesAndFindWinner`: under the (always true in context) assumption
that every counted vote targets some proposal author, the winners are
exactly the proposals with a nonzero tally no other proposal exceeds. -/
lemma mem_winnersOf_iff (votes : List Vote) (proposals : List Proposal)
    (htargets : ∀ pid ∈ validVoteTargets votes,
      ∃ p ∈ proposals, p.memberId = pid) (p : Proposal) :
    p ∈ winnersOf votes proposals ↔
      p ∈ proposals ∧ 0 < voteCount votes p.memberId ∧
        ∀ q ∈ proposals,
          voteCount votes q.memberId ≤ voteCount votes p.memberId := by
  unfold winnersOf
  by_cases hmax : 0 < maxVotes votes
  · rw [if_pos hmax]
    simp only [List.mem_filter, decide_eq_true_eq]
    constructor
    · rintro ⟨hp, hcount⟩
      refine ⟨hp, by omega, ?_⟩
      intro q hq
      by_cases hq2 : q.memberId ∈ validVoteTargets votes
      · have := voteCount_le_maxVotes hq2
        omega
      · have : voteCount votes q.memberId = 0 := by
          by_contra hne
          exact hq2 (voteCount_pos_iff.mp (by omega))
        omega
    · rintro ⟨hp, hpos, hmaxp⟩
      refine ⟨hp, ?_⟩
      have h1 : voteCount votes p.memberId ≤ maxVotes votes :=
        voteCount_le_maxVotes (voteCount_pos_iff.mp hpos)
      have h2 : maxVotes votes ≤ voteCount votes p.memberId := by
        obtain ⟨pid, hpid, heq⟩ := exists_maxVotes_attained votes (by omega)
        obtain ⟨q, hq, rfl⟩ := htargets pid hpid
        have := hmaxp q hq
        omega
      omega
  · rw [if_neg hmax]
    simp only [List.not_mem_nil, false_iff, not_and]
    intro _ hpos
    have := voteCount_le_maxVotes (voteCount_pos_iff.mp hpos)
    omega

lemma winnersOf_eq_nil_of_no_targets {votes : List Vote}
    (proposals : List Proposal) (h : validVoteTargets votes = []) :
    winnersOf votes proposals = [] := by
  unfold winnersOf maxVotes
  rw [h]
  simp

/-- C3: the tie handling of `tallyVotesAndFindWinner`.  The winner set is
the proposals with the maximal nonzero tally; a unique winner yields no
`tieBreak`; two or more tied winners yield a `tieBreak` whose
`tiedProposals` is exactly the tied winner set; zero counted votes yield
a `tieBreak` whose `tiedProposals` is the full proposal list. -/
theorem tally_tie_break_cases (votes : List Vote) (proposals : List Proposal)
    (arb : ArbAnswer) (w : Proposal) (tb : Option TieBreakExplanation)
    (hres : tallyVotesAndFindWinner votes proposals arb = .ok (w, tb))
    (htargets : ∀ pid ∈ validVoteTargets votes,
      ∃ p ∈ proposals, p.memberId = pid) :
    (∀ p, p ∈ winnersOf votes proposals ↔
      (p ∈ proposals ∧ 0 < voteCount votes p.memberId ∧
        ∀ q ∈ proposals,
          voteCount votes q.memberId ≤ voteCount votes p.memberId)) ∧
    ((winnersOf votes proposals).length = 1 → tb = none) ∧
    (2 ≤ (winnersOf votes proposals).length →
      ∃ e, tb = some e ∧ e.tiedProposals = winnersOf votes proposals) ∧
    (validVoteTargets votes = [] →
      ∃ e, tb = some e ∧ e.tiedProposals = proposals) := by
  have hmain := mem_winnersOf_iff votes proposals htargets
  unfold tallyVotesAndFindWinner at hres
  split at hres
  case _ w1 hww =>
    simp only [Except.ok.injEq, Prod.mk.injEq] at hres
    obtain ⟨rfl, rfl⟩ := hres
    refine ⟨hmain, fun _ => rfl, ?_, ?_⟩
    · intro h2
      rw [hww] at h2
      simp at h2
    · intro h4
      rw [winnersOf_eq_nil_of_no_targets proposals h4] at hww
      cases hww
  case _ hww =>
    split at hres
    · cases hres
    case _ w' hbt =>
      simp only [Except.ok.injEq, Prod.mk.injEq] at hres
      obtain ⟨rfl, rfl⟩ := hres
      refine ⟨hmain, ?_, ?_, fun _ => ⟨_, rfl, rfl⟩⟩
      · intro h1
        rw [hww] at h1
        simp at h1
      · intro h2
        rw [hww] at h2
        simp at h2
  case _ w1 w2 rest hww =>
    split at hres
    · cases hres
    case _ w' hbt =>
      simp only [Except.ok.injEq, Prod.mk.injEq] at hres
      obtain ⟨rfl, rfl⟩ := hres
      refine ⟨hmain, ?_, fun _ => ⟨_, rfl, hww.symm⟩, ?_⟩
      · intro h1
        rw [hww] at h1
        simp at h1
      · intro h4
        rw [winnersOf_eq_nil_of_no_targets proposals h4] at hww
        cases hww

/-- Concrete proposal by member m1, used by witnesses and
counterexamples. -/
def pA : Proposal := { memberId := "m1", content := "a", reasoning := "ra" }

/-- Concrete proposal by member m2. -/
def pB : Proposal := { memberId := "m2", content := "b", reasoning := "rb" }

/-- The tie-break record produced by the C3 witness scenario. -/
def tieAB : TieBreakExplanation :=
  { tiedProposals := [pA, pB]
    decision := "m1"
    reasoning := "Tied at 1 votes each, orchestrator selected" }

/-- C3 witness: a 1-1 split between two proposals yields a tie break
whose tied set is exactly the two winners. -/
theorem tally_tie_break_cases_witness :
    ∃ e, (some tieAB : Option TieBreakExplanation) = some e ∧
      e.tiedProposals = winnersOf [voteFor "m1" "m2", voteFor "m2" "m1"]
        [pA, pB] :=
  (tally_tie_break_cases [voteFor "m1" "m2", voteFor "m2" "m1"] [pA, pB]
    (some 1) pA _ (by decide) (by decide)).2.2.1 (by decide)

lemma jsIndex_eq_some_of_get? {α : Type} {xs : List α} {k : Nat} {p : α}
    (h1 : 1 ≤ k) (hp : xs.get? (k - 1) = some p) :
    jsIndex xs ((k : Int) - 1) = some p := by
  have hlt : k - 1 < xs.length := List.get?_eq_some.mp hp |>.1
  unfold jsIndex
  rw [dif_pos ⟨by omega, by omega⟩]
  have : ((k : Int) - 1).toNat = k - 1 := by omega
  rw [← List.get?_eq_get]
  simp only [this]
  exact hp

lemma jsIndex_eq_none_of_out {α : Type} (xs : List α) (sel : Int)
    (h : sel ≤ 0 ∨ (xs.length : Int) < sel) :
    jsIndex xs (sel - 1) = none := by
  unfold jsIndex
  rw [dif_neg]
  rintro ⟨h1, h2⟩
  rcases h with h | h
  · omega
  · omega

/-- C1 counterexample: member m1 returns vote value 1 among two
proposals.  Its filtered ballot view is `[pB]`, so per the claim the
vote must decode to pB; the council decoder instead indexes the FULL
proposal list, hits the own proposal pA of the voter and coerces the ballot
to abstain. -/
theorem ballot_view_decode_counterexample :
    otherProposals [pA, pB] "m1" = [pB] ∧
    (decodeCouncilVote [pA, pB] "m1"
      { vote := some 1, reasoning := "r" }).proposalMemberId = none := by
  decide

/-- C1 amended: a null vote decodes to abstain in both flows; a council
(selection-round) ballot index is decoded against the FULL proposal
list, with an index landing on the voter itself coerced to abstain; a
practice-round (candidate) ballot index is decoded against the
FILTERED ballot view, as the claim states.  Out-of-range indexes decode
to abstain in both flows. -/
theorem ballot_view_decode (proposals : List Proposal) (voterId r : String)
    (k : Nat) (p q : Proposal) (hk : 1 ≤ k)
    (hne : otherProposals proposals voterId ≠ [])
    (hfull : proposals.get? (k - 1) = some p)
    (hfiltered : (otherProposals proposals voterId).get? (k - 1) = some q)
    (hq : q.memberId ≠ "") :
    (decodeCouncilVote proposals voterId
        { vote := none, reasoning := r }).proposalMemberId = none ∧
    (decodeCandidateVote proposals voterId
        { vote := none, reasoning := r }).proposalMemberId = none ∧
    (decodeCouncilVote proposals voterId
        { vote := some (k : Int), reasoning := r }).proposalMemberId =
      (if p.memberId = voterId then none else some p.memberId) ∧
    (decodeCandidateVote proposals voterId
        { vote := some (k : Int), reasoning := r }).proposalMemberId =
      some q.memberId ∧
    (∀ sel : Int, sel ≤ 0 ∨ (proposals.length : Int) < sel →
      (decodeCouncilVote proposals voterId
        { vote := some sel, reasoning := r }).proposalMemberId = none) ∧
    (∀ sel : Int,
      sel ≤ 0 ∨ ((otherProposals proposals voterId).length : Int) < sel →
      (decodeCandidateVote proposals voterId
        { vote := some sel, reasoning := r }).proposalMemberId = none) := by
  have hne2 : (otherProposals proposals voterId).isEmpty = false := by
    cases h : (otherProposals proposals voterId).isEmpty
    · rfl
    · exact absurd (List.isEmpty_iff.mp h) hne
  refine ⟨?_, ?_, ?_, ?_, ?_, ?_⟩
  · unfold decodeCouncilVote
    rw [if_neg (by simp [hne2])]
  · unfold decodeCandidateVote
    rw [if_neg (by simp [hne2])]
    rfl
  · unfold decodeCouncilVote
    rw [if_neg (by simp [hne2])]
    dsimp only
    rw [jsIndex_eq_some_of_get? hk hfull]
    show (if p.memberId ≠ voterId then some p.memberId else none) =
      if p.memberId = voterId then none else some p.memberId
    by_cases hp : p.memberId = voterId
    · simp [hp]
    · simp [hp]
  · unfold decodeCandidateVote
    rw [if_neg (by simp [hne2])]
    dsimp only
    rw [jsIndex_eq_some_of_get? hk hfiltered]
    show jsOrNull (Option.map Proposal.memberId (some q)) = some q.memberId
    simp [jsOrNull, hq]
  · intro sel hsel
    unfold decodeCouncilVote
    rw [if_neg (by simp [hne2])]
    dsimp only
    rw [jsIndex_eq_none_of_out proposals sel hsel]
  · intro sel hsel
    unfold decodeCandidateVote
    rw [if_neg (by simp [hne2])]
    dsimp only
    rw [jsIndex_eq_none_of_out (otherProposals proposals voterId) sel hsel]
    rfl

/-- C1 witness: among two proposals, voter m2 returning vote value 1
keeps proposal pA (full-list decode, not self) in the council flow and
also selects pA in the candidate flow (pA is first in the filtered
view); the out-of-range vote value 5 decodes to abstain in both flows. -/
theorem ballot_view_decode_witness :
    (decodeCouncilVote [pA, pB] "m2"
        { vote := none, reasoning := "r" }).proposalMemberId = none ∧
    (decodeCandidateVote [pA, pB] "m2"
        { vote := none, reasoning := "r" }).proposalMemberId = none ∧
    (decodeCouncilVote [pA, pB] "m2"
        { vote := some (1 : Int), reasoning := "r" }).proposalMemberId =
      (if pA.memberId = "m2" then none else some pA.memberId) ∧
    (decodeCandidateVote [pA, pB] "m2"
        { vote := some (1 : Int), reasoning := "r" }).proposalMemberId =
      some pA.memberId ∧
    (decodeCouncilVote [pA, pB] "m2"
        { vote := some (5 : Int), reasoning := "r" }).proposalMemberId = none ∧
    (decodeCandidateVote [pA, pB] "m2"
        { vote := some (5 : Int), reasoning := "r" }).proposalMemberId =
      none := by
  have h := ballot_view_decode [pA, pB] "m2" "r" 1 pA pA (by decide)
    (by decide) (by decide) (by decide) (by decide)
  refine ⟨h.1, h.2.1, by simpa using h.2.2.1, by simpa using h.2.2.2.1,
    h.2.2.2.2.1 5 (by decide), h.2.2.2.2.2 5 (by decide)⟩

/-- C4 counterexample: with a tie set of two proposals and an
arbitration answer whose JSON never parses, the tie break raises the
parse error propagated from the provider (after its internal correction
retries) instead of defaulting to the first tied proposal. -/
theorem tie_arbitration_counterexample :
    breakTie [pA, pB] none =
      Except.error "Failed to parse JSON after 3 attempts" := by
  decide

/-- C4 amended: for a tie set of two or more proposals exactly one
arbitration call is made; a parsed in-range 1-based selection picks that
element of the tie set; a parsed out-of-range selection falls back to
the first element without an error; an answer that still fails JSON
parsing after the correction retries of the provider raises an error. -/
theorem tie_arbitration_resolution (p q : Proposal) (rest : List Proposal)
    (sel : Int) (k : Nat) (c : Proposal) (hk : 1 ≤ k)
    (hkc : (p :: q :: rest).get? (k - 1) = some c)
    (hout : sel ≤ 0 ∨ ((p :: q :: rest).length : Int) < sel) :
    breakTieAgentCalls (p :: q :: rest) = 1 ∧
    breakTie (p :: q :: rest) (some (k : Int)) = .ok c ∧
    breakTie (p :: q :: rest) (some sel) = .ok p ∧
    breakTie (p :: q :: rest) none =
      .error "Failed to parse JSON after 3 attempts" := by
  refine ⟨rfl, ?_, ?_, rfl⟩
  · show Except.ok ((jsIndex (p :: q :: rest) ((k : Int) - 1)).getD p) =
      Except.ok c
    rw [jsIndex_eq_some_of_get? hk hkc]
    rfl
  · show Except.ok ((jsIndex (p :: q :: rest) (sel - 1)).getD p) =
      Except.ok p
    rw [jsIndex_eq_none_of_out _ sel hout]
    rfl

/-- C4 witness: tie set `[pA, pB]`, selection 2 picks pB, selection 5 is
out of range and falls back to pA, an unparsable answer errors. -/
theorem tie_arbitration_resolution_witness :
    breakTieAgentCalls [pA, pB] = 1 ∧
    breakTie [pA, pB] (some (2 : Nat)) = .ok pB ∧
    breakTie [pA, pB] (some 5) = .ok pA ∧
    breakTie [pA, pB] none =
      .error "Failed to parse JSON after 3 attempts" :=
  tie_arbitration_resolution pA pB [] 5 2 pB (by decide) (by decide)
    (by decide)

/-- C5 counterexample: two proposals succeeded, yet `vote` raises: the
ballots split 1-1, the tie goes to arbitration, and a persistently
unparsable arbitration answer propagates as an (un-aggregated) error
even though at least one proposal operation succeeded. -/
theorem vote_error_flow_counterexample :
    ([pA, pB] : List Proposal) ≠ [] ∧
    voteFlow [pA, pB] [] [voteFor "m1" "m2", voteFor "m2" "m1"] [] none [] =
      .error (.tieArbitrationFailed "Failed to parse JSON after 3 attempts") := by
  decide

/-- C5 amended: `vote` raises the aggregated error carrying every
proposal-round failure message exactly when zero proposals succeeded;
when at least one proposal succeeded AND the tally/arbitration step
succeeds, it returns the structured result whose errors field collects
every retry-exhausted failure from the proposal, selection and eviction
sub-rounds; when the arbitration step fails, that error propagates
instead of a result. -/
theorem vote_error_flow (proposals : List Proposal) (pErrs : List String)
    (votes : List Vote) (vErrs : List String) (arb : ArbAnswer)
    (eErrs : List String) (hne : proposals ≠ []) :
    ¬ (∃ msgs, voteFlow proposals pErrs votes vErrs arb eErrs =
        .error (.allProposalsFailed msgs)) ∧
    (voteFlow [] pErrs votes vErrs arb eErrs =
      .error (.allProposalsFailed pErrs)) ∧
    (∀ w tb, tallyVotesAndFindWinner votes proposals arb = .ok (w, tb) →
      voteFlow proposals pErrs votes vErrs arb eErrs =
        .ok (w, tb, pErrs ++ vErrs ++ eErrs) ∧
      (∀ e, e ∈ pErrs ∨ e ∈ vErrs ∨ e ∈ eErrs →
        e ∈ pErrs ++ vErrs ++ eErrs)) ∧
    (∀ msg, tallyVotesAndFindWinner votes proposals arb = .error msg →
      voteFlow proposals pErrs votes vErrs arb eErrs =
        .error (.tieArbitrationFailed msg)) := by
  have hne2 : proposals.isEmpty = false := by
    cases hpe : proposals.isEmpty
    · rfl
    · exact absurd (List.isEmpty_iff.mp hpe) hne
  refine ⟨?_, rfl, ?_, ?_⟩
  · rintro ⟨msgs, h⟩
    unfold voteFlow at h
    rw [if_neg (by simp [hne2])] at h
    rcases ht : tallyVotesAndFindWinner votes proposals arb with msg | pr
    · rw [ht] at h
      simp at h
    · rcases pr with ⟨w, tb⟩
      rw [ht] at h
      simp at h
  · intro w tb ht
    unfold voteFlow
    rw [if_neg (by simp [hne2]), ht]
    refine ⟨rfl, ?_⟩
    intro e he
    simp only [List.mem_append]
    tauto
  · intro msg ht
    unfold voteFlow
    rw [if_neg (by simp [hne2]), ht]

/-- C5 witness: with one successful proposal and a decisive vote the
flow returns the structured result carrying the failure messages of all
three sub-rounds, and with an arbitration parse failure on a tie it
propagates that error. -/
theorem vote_error_flow_witness :
    voteFlow [pA, pB] ["p failed"] [voteFor "m1" "m2"]
        ["v failed"] none ["e failed"] =
      .ok (pB, none, ["p failed"] ++ ["v failed"] ++ ["e failed"]) ∧
    voteFlow [] ["p failed"] [] [] none [] =
      .error (.allProposalsFailed ["p failed"]) :=
  ⟨((vote_error_flow [pA, pB] ["p failed"]
      [voteFor "m1" "m2"] ["v failed"] none ["e failed"]
      (by decide)).2.2.1 pB none (by decide)).1,
   (vote_error_flow [pA] ["p failed"] [] [] none []
      (by decide)).2.1⟩

lemma jsIndex_mem {α : Type} {xs : List α} {i : Int} {x : α}
    (h : jsIndex xs i = some x) : x ∈ xs := by
  unfold jsIndex at h
  split at h
  · simp only [Option.some.injEq] at h
    subst h
    exact List.get_mem _ _ _
  · cases h

lemma getPromotionVote_singleton (c : String) (v : Int) :
    getPromotionVote [c] v = some c := by
  show some (match jsIndex [c] (v - 1) with
    | some x => if x = "" then c else x
    | none => c) = some c
  rcases hj : jsIndex [c] (v - 1) with _ | x
  · rfl
  · have hxc : x = c := List.mem_singleton.mp (jsIndex_mem hj)
    rw [hxc]
    show some (if c = "" then c else c) = some c
    split <;> rfl

lemma candidateBallot_self_pool (m : String) (cr : String → Option Int) :
    candidateBallot [m] cr m = none := by
  unfold candidateBallot
  cases hcr : cr m
  · rfl
  · have hf : List.filter (fun x => x ≠ m) [m] = [] := by simp
    rw [hf]
    rfl

lemma memberBallot_single_pool (m x : String) (mr : String → Option Int) :
    memberBallot [m] mr x = (mr x).map
      (fun _ => { voterId := x, candidateId := m, weight := 2 }) := by
  unfold memberBallot
  cases hmr : mr x with
  | none => rfl
  | some v =>
    show Option.map
        (fun c => ({ voterId := x, candidateId := c, weight := 2 } :
          PromotionVote)) (getPromotionVote [m] v) =
      Option.map (fun _ => ({ voterId := x, candidateId := m, weight := 2 } :
        PromotionVote)) (some v)
    rw [getPromotionVote_singleton]
    rfl

lemma buildPromotionBallots_single_pool (M : List String) (m : String)
    (mr cr : String → Option Int) :
    buildPromotionBallots M [m] mr cr =
      M.filterMap (fun x => (mr x).map
        (fun _ => { voterId := x, candidateId := m, weight := 2 })) := by
  unfold buildPromotionBallots
  have h2 : [m].filterMap (candidateBallot [m] cr) = [] := by
    rw [List.filterMap_cons, candidateBallot_self_pool]
    rfl
  rw [h2, List.append_nil]
  exact List.filterMap_congr (fun x _ => memberBallot_single_pool m x mr)

lemma firstOccurrences_aux_const {m : String} (l : List String)
    (hl : ∀ x ∈ l, x = m) :
    l.foldl (fun acc x => if x ∈ acc then acc else acc ++ [x]) [m] = [m] := by
  induction l with
  | nil => rfl
  | cons a rest ih =>
    have ha : a = m := hl a (List.mem_cons_self _ _)
    subst ha
    simp only [List.foldl_cons, if_pos (List.mem_singleton.mpr rfl)]
    exact ih (fun x hx => hl x (List.mem_cons_of_mem _ hx))

lemma firstOccurrences_const {m : String} {l : List String}
    (hl : ∀ x ∈ l, x = m) (hne : l ≠ []) :
    firstOccurrences l = [m] := by
  cases l with
  | nil => exact absurd rfl hne
  | cons a rest =>
    have ha : a = m := hl a (List.mem_cons_self _ _)
    subst ha
    unfold firstOccurrences
    simp only [List.foldl_cons, if_neg (List.not_mem_nil a), List.nil_append]
    exact firstOccurrences_aux_const rest
      (fun x hx => hl x (List.mem_cons_of_mem _ hx))

lemma promotionWinnerScan_single (counts : String → Nat) (m : String)
    (hpos : 0 < counts m) :
    (promotionWinnerScan counts [m]).2 = [m] := by
  unfold promotionWinnerScan
  simp only [List.foldl]
  rw [if_pos hpos]

/-- Running `runPromotionVote` over a pool holding exactly one candidate, with
at least one member ballot succeeding: every member ballot decodes to
that candidate, the own ballot of the candidate fails (its filtered list is
empty), and the candidate is promoted and returned. -/
lemma runPromotionVote_single_pool (s : CouncilState) (m : String)
    (mr cr : String → Option Int) (fitness : String → Int)
    (hcand : s.candidateIds = [m])
    (hsome : ∃ x ∈ s.memberIds, (mr x).isSome) :
    runPromotionVote s mr cr fitness = .ok (promoteCandidateState s m, some m) := by
  unfold runPromotionVote
  rw [hcand]
  rw [if_neg (by simp)]
  dsimp only
  rw [buildPromotionBallots_single_pool s.memberIds m mr cr]
  have hball : ∀ b ∈ s.memberIds.filterMap (fun x => (mr x).map
      (fun _ => ({ voterId := x, candidateId := m, weight := 2 } :
        PromotionVote))), b.candidateId = m ∧ b.weight = 2 := by
    intro b hb
    obtain ⟨x, -, hx⟩ := List.mem_filterMap.mp hb
    obtain ⟨v, -, hv⟩ := Option.map_eq_some.mp hx
    rw [← hv]
    exact ⟨rfl, rfl⟩
  obtain ⟨x0, hx0, hx0s⟩ := hsome
  have hne : s.memberIds.filterMap (fun x => (mr x).map
      (fun _ => ({ voterId := x, candidateId := m, weight := 2 } :
        PromotionVote))) ≠ [] := by
    intro hnil
    obtain ⟨v, hv⟩ := Option.isSome_iff_exists.mp hx0s
    have : ({ voterId := x0, candidateId := m, weight := 2 } :
        PromotionVote) ∈ s.memberIds.filterMap (fun x => (mr x).map
          (fun _ => ({ voterId := x, candidateId := m, weight := 2 } :
            PromotionVote))) := by
      apply List.mem_filterMap.mpr
      exact ⟨x0, hx0, by rw [hv]; rfl⟩
    rw [hnil] at this
    cases this
  set B := s.memberIds.filterMap (fun x => (mr x).map
    (fun _ => ({ voterId := x, candidateId := m, weight := 2 } :
      PromotionVote))) with hB
  have horder : firstOccurrences (B.map PromotionVote.candidateId) = [m] := by
    apply firstOccurrences_const
    · intro y hy
      obtain ⟨b, hb, hbe⟩ := List.mem_map.mp hy
      rw [← hbe]
      exact (hball b hb).1
    · intro hnil
      exact hne (List.map_eq_nil_iff.mp hnil)
  rw [horder]
  have hpos : 0 < weightedCount B m := by
    rcases hBc : B with _ | ⟨b, rest⟩
    · exact absurd hBc hne
    · have hb := hball b (by rw [hBc]; exact List.mem_cons_self _ _)
      unfold weightedCount
      rw [List.filter_cons_of_pos (by simp [hb.1])]
      simp only [List.foldr_cons]
      omega
  rw [promotionWinnerScan_single (weightedCount B) m hpos]

/-- The concrete roster for the C10 scenario: a full council of eight
and an EMPTY candidate pool. -/
def fullCouncilState : CouncilState :=
  { memberIds := ["m1", "m2", "m3", "m4", "m5", "m6", "m7", "m8"]
    candidateIds := []
    targetPoolSize := 5
    roundsSinceEviction := 0
    lastRemovalCauses := []
    removalHistorySummary := none }

/-- C10 counterexample: evicting m8 from a council whose candidate pool
is empty does NOT skip the promotion sub-vote: `demoteMember` pushes m8
into the pool first, so the sub-vote runs, every member ballot decodes
to m8, and m8 is promoted straight back — the eviction result carries
replacement m8 and the council is restored to its original eight
seats (the final roster equals the starting one). -/
theorem empty_pool_backfill_counterexample :
    (demoteMemberState fullCouncilState "m8").candidateIds = ["m8"] ∧
    evictAndBackfill fullCouncilState "m8" (fun _ => some 1) (fun _ => some 1)
      (fun _ => 0) = .ok (fullCouncilState, some "m8") := by
  decide

/-- C10 amended: `runPromotionVote` returns null (with no ballots cast)
only when `candidateIds` is empty at call time; during eviction
processing the just-demoted member is pushed into the pool BEFORE the
sub-vote, so with a previously empty pool the pool holds exactly the
demoted member, the sub-vote runs, and (as soon as one member ballot
succeeds) re-promotes the demoted member as the recorded replacement,
leaving the council at full size rather than one seat smaller. -/
theorem empty_pool_backfill (state : CouncilState) (memberId : String)
    (mr cr : String → Option Int) (fitness : String → Int)
    (hpool : state.candidateIds = [])
    (hm : memberId ≠ "")
    (hsome : ∃ x ∈ (demoteMemberState state memberId).memberIds,
      (mr x).isSome) :
    (∀ s : CouncilState, s.candidateIds = [] →
      runPromotionVote s mr cr fitness = .ok (s, none)) ∧
    (demoteMemberState state memberId).candidateIds = [memberId] ∧
    evictAndBackfill state memberId mr cr fitness =
      .ok (promoteCandidateState (demoteMemberState state memberId) memberId,
        some memberId) ∧
    (promoteCandidateState (demoteMemberState state memberId)
        memberId).memberIds =
      state.memberIds.filter (fun id => id ≠ memberId) ++ [memberId] ∧
    (promoteCandidateState (demoteMemberState state memberId)
        memberId).candidateIds = [] := by
  have hcand : (demoteMemberState state memberId).candidateIds = [memberId] := by
    simp [demoteMemberState, hpool]
  have hrun := runPromotionVote_single_pool (demoteMemberState state memberId)
    memberId mr cr fitness hcand hsome
  refine ⟨?_, hcand, ?_, rfl, ?_⟩
  · intro s hs
    unfold runPromotionVote
    rw [if_pos (by simp [hs])]
  · unfold evictAndBackfill
    rw [hrun]
    simp [jsOrNull, hm]
  · simp [promoteCandidateState, hcand]

/-- C10 witness: the general statement instantiated at the concrete
eight-member council with an empty pool. -/
theorem empty_pool_backfill_witness :
    evictAndBackfill fullCouncilState "m8" (fun _ => some 2) (fun _ => some 2)
        (fun _ => 0) =
      .ok (promoteCandidateState (demoteMemberState fullCouncilState "m8")
        "m8", some "m8") ∧
    (demoteMemberState fullCouncilState "m8").candidateIds = ["m8"] :=
  ⟨(empty_pool_backfill fullCouncilState "m8" (fun _ => some 2)
      (fun _ => some 2) (fun _ => 0) rfl (by decide) (by decide)).2.2.1,
   (empty_pool_backfill fullCouncilState "m8" (fun _ => some 2)
      (fun _ => some 2) (fun _ => 0) rfl (by decide) (by decide)).2.1⟩

/-- All concurrent `saveMember` calls have returned successfully. -/
def allDone (s : KVSystem) : Prop := ∀ w ∈ s.writers, w.phase = .done

/-- Invariant of the optimistic-concurrency system: the writer list
keeps its ids; the stored id list stays duplicate-free; the stored ids
are exactly the initial ones plus the ids of writers whose commit
succeeded; a snapshot matching the current version equals the current
state, and no snapshot is from the future. -/
def KVInv (initialIds ids : List String) (s : KVSystem) : Prop :=
  s.writers.map Writer.id = ids ∧
  s.kv.ids.Nodup ∧
  (∀ x : String, x ∈ s.kv.ids ↔ x ∈ initialIds ∨
    ∃ (j : Nat) (hj : j < s.writers.length),
      s.writers[j].phase = .done ∧ s.writers[j].id = x) ∧
  (∀ (j : Nat) (hj : j < s.writers.length) (snap : List String) (v : Nat),
    s.writers[j].phase = .toCommit snap v →
      (v = s.kv.version → snap = s.kv.ids) ∧ v ≤ s.kv.version)

lemma writers_set_map_id {W : List Writer} {i : Nat} {hi : i < W.length}
    {w' : Writer} (hid : w'.id = (W[i]).id) :
    (W.set i w').map Writer.id = W.map Writer.id := by
  apply List.ext_getElem (by simp)
  intro j h1 h2
  simp only [List.getElem_map, List.getElem_set]
  split
  · rename_i hij
    subst hij
    exact hid
  · rfl

lemma KVInv_start (initialIds ids : List String) (hinit : initialIds.Nodup) :
    KVInv initialIds ids (startSystem initialIds ids) := by
  show KVInv initialIds ids
    { kv := { ids := initialIds, version := 0 }
      writers := ids.map Writer.start }
  unfold KVInv
  dsimp only
  refine ⟨?_, hinit, ?_, ?_⟩
  · rw [List.map_map]
    exact List.map_id'' (fun _ => rfl) _
  · intro x
    constructor
    · exact fun hx => Or.inl hx
    · rintro (hx | ⟨j, hj, hdone, -⟩)
      · exact hx
      · rw [List.getElem_map] at hdone
        cases hdone
  · intro j hj snap v hcommit
    rw [List.getElem_map] at hcommit
    cases hcommit

lemma KVInv_schedStep (initialIds ids : List String) (s : KVSystem) (i : Nat)
    (h : KVInv initialIds ids s) : KVInv initialIds ids (schedStep s i) := by
  obtain ⟨hmap, hnodup, hmem, hsnap⟩ := h
  unfold schedStep
  cases hw : s.writers.get? i with
  | none => exact ⟨hmap, hnodup, hmem, hsnap⟩
  | some w =>
    rw [List.get?_eq_getElem?] at hw
    obtain ⟨hi, hwi⟩ := List.getElem?_eq_some_iff.mp hw
    show KVInv initialIds ids
      { kv := (saveStep s.kv w).1
        writers := s.writers.set i (saveStep s.kv w).2 }
    cases hph : w.phase with
    | toRead =>
      by_cases hatt : w.attemptsLeft = 0
      · -- the call throws: phase becomes failed, store untouched
        have hstep : saveStep s.kv w =
            (s.kv, { w with phase := .failed }) := by
          unfold saveStep
          rw [hph, if_pos hatt]
        rw [hstep]
        dsimp only
        refine ⟨writers_set_map_id (by rw [hwi]) |>.trans hmap, hnodup, ?_, ?_⟩
        · intro x
          rw [hmem x]
          apply or_congr_right
          constructor
          · rintro ⟨j, hj, hdone, hid⟩
            refine ⟨j, by simpa using hj, ?_, ?_⟩ <;>
              rw [List.getElem_set] <;> split
            · rename_i hij
              subst hij
              rw [hwi] at hdone
              rw [hph] at hdone
              cases hdone
            · exact hdone
            · rename_i hij
              subst hij
              rw [hwi] at hdone
              rw [hph] at hdone
              cases hdone
            · exact hid
          · rintro ⟨j, hj, hdone, hid⟩
            rw [List.getElem_set] at hdone hid
            by_cases hij : i = j
            · rw [if_pos hij] at hdone
              cases hdone
            · rw [if_neg hij] at hdone hid
              exact ⟨j, by simpa using hj, hdone, hid⟩
        · intro j hj snap v hcommit
          rw [List.getElem_set] at hcommit
          by_cases hij : i = j
          · rw [if_pos hij] at hcommit
            cases hcommit
          · rw [if_neg hij] at hcommit
            exact hsnap j (by simpa using hj) snap v hcommit
      · -- read a snapshot of the current state and version
        have hstep : saveStep s.kv w =
            (s.kv, { w with phase := .toCommit s.kv.ids s.kv.version }) := by
          unfold saveStep
          rw [hph, if_neg hatt]
        rw [hstep]
        dsimp only
        refine ⟨writers_set_map_id (by rw [hwi]) |>.trans hmap, hnodup, ?_, ?_⟩
        · intro x
          rw [hmem x]
          apply or_congr_right
          constructor
          · rintro ⟨j, hj, hdone, hid⟩
            refine ⟨j, by simpa using hj, ?_, ?_⟩ <;>
              rw [List.getElem_set] <;> split
            · rename_i hij
              subst hij
              rw [hwi] at hdone
              rw [hph] at hdone
              cases hdone
            · exact hdone
            · rename_i hij
              subst hij
              rw [hwi] at hdone
              rw [hph] at hdone
              cases hdone
            · exact hid
          · rintro ⟨j, hj, hdone, hid⟩
            rw [List.getElem_set] at hdone hid
            by_cases hij : i = j
            · rw [if_pos hij] at hdone
              cases hdone
            · rw [if_neg hij] at hdone hid
              exact ⟨j, by simpa using hj, hdone, hid⟩
        · intro j hj snap v hcommit
          rw [List.getElem_set] at hcommit
          by_cases hij : i = j
          · rw [if_pos hij] at hcommit
            cases hcommit
            exact ⟨fun _ => rfl, le_refl _⟩
          · rw [if_neg hij] at hcommit
            exact hsnap j (by simpa using hj) snap v hcommit
    | toCommit snap v =>
      by_cases hv : v = s.kv.version
      · -- version check passes: the conditional commit succeeds
        have hfresh : snap = s.kv.ids :=
          (hsnap i hi snap v (by rw [hwi, hph])).1 hv
        have hstep : saveStep s.kv w =
            ({ ids := if w.id ∈ snap then snap else snap ++ [w.id],
               version := s.kv.version + 1 },
             { w with
               phase := .done
               attemptsLeft := w.attemptsLeft - 1 }) := by
          unfold saveStep
          rw [hph]
          dsimp only
          rw [if_pos hv]
        rw [hstep]
        dsimp only
        have hupd : ∀ x : String,
            (x ∈ (if w.id ∈ snap then snap else snap ++ [w.id])) ↔
              x ∈ s.kv.ids ∨ x = w.id := by
          intro x
          subst hfresh
          split
          · rename_i hin
            constructor
            · exact fun hx => Or.inl hx
            · rintro (hx | rfl)
              · exact hx
              · exact hin
          · simp [List.mem_append]
        refine ⟨writers_set_map_id (by rw [hwi]) |>.trans hmap, ?_, ?_, ?_⟩
        · show List.Nodup (if w.id ∈ snap then snap else snap ++ [w.id])
          subst hfresh
          split
          · exact hnodup
          · rename_i hnin
            rw [← List.concat_eq_append]
            exact List.Nodup.concat hnin hnodup
        · intro x
          show (x ∈ (if w.id ∈ snap then snap else snap ++ [w.id])) ↔ _
          rw [hupd x, hmem x]
          constructor
          · rintro ((hx | ⟨j, hj, hdone, hid⟩) | rfl)
            · exact Or.inl hx
            · have hij : ¬ i = j := by
                intro hij
                subst hij
                rw [hwi, hph] at hdone
                cases hdone
              refine Or.inr ⟨j, by simpa using hj, ?_, ?_⟩ <;>
                rw [List.getElem_set, if_neg hij]
              · exact hdone
              · exact hid
            · refine Or.inr ⟨i, by simpa using hi, ?_, ?_⟩ <;>
                rw [List.getElem_set, if_pos rfl]
          · rintro (hx | ⟨j, hj, hdone, hid⟩)
            · exact Or.inl (Or.inl hx)
            · rw [List.getElem_set] at hdone hid
              by_cases hij : i = j
              · rw [if_pos hij] at hid
                right
                exact hid.symm
              · rw [if_neg hij] at hdone hid
                exact Or.inl (Or.inr ⟨j, by simpa using hj, hdone, hid⟩)
        · intro j hj snap' v' hcommit
          dsimp only at hcommit ⊢
          rw [List.getElem_set] at hcommit
          by_cases hij : i = j
          · rw [if_pos hij] at hcommit
            cases hcommit
          · rw [if_neg hij] at hcommit
            have hold := hsnap j (by simpa using hj) snap' v' hcommit
            constructor
            · intro hv'
              exfalso
              omega
            · omega
      · -- version mismatch: loop back to the read with one fewer attempt
        have hstep : saveStep s.kv w =
            (s.kv, { w with
              phase := .toRead
              attemptsLeft := w.attemptsLeft - 1 }) := by
          unfold saveStep
          rw [hph]
          dsimp only
          rw [if_neg hv]
        rw [hstep]
        dsimp only
        refine ⟨writers_set_map_id (by rw [hwi]) |>.trans hmap, hnodup, ?_, ?_⟩
        · intro x
          rw [hmem x]
          apply or_congr_right
          constructor
          · rintro ⟨j, hj, hdone, hid⟩
            have hij : ¬ i = j := by
              intro hij
              subst hij
              rw [hwi, hph] at hdone
              cases hdone
            refine ⟨j, by simpa using hj, ?_, ?_⟩ <;>
              rw [List.getElem_set, if_neg hij]
            · exact hdone
            · exact hid
          · rintro ⟨j, hj, hdone, hid⟩
            rw [List.getElem_set] at hdone hid
            by_cases hij : i = j
            · rw [if_pos hij] at hdone
              cases hdone
            · rw [if_neg hij] at hdone hid
              exact ⟨j, by simpa using hj, hdone, hid⟩
        · intro j hj snap' v' hcommit
          rw [List.getElem_set] at hcommit
          by_cases hij : i = j
          · rw [if_pos hij] at hcommit
            cases hcommit
          · rw [if_neg hij] at hcommit
            exact hsnap j (by simpa using hj) snap' v' hcommit
    | done =>
      have hstep : saveStep s.kv w = (s.kv, w) := by
        unfold saveStep
        rw [hph]
      rw [hstep]
      dsimp only
      refine ⟨writers_set_map_id (by rw [hwi]) |>.trans hmap, hnodup, ?_, ?_⟩
      · intro x
        rw [hmem x]
        apply or_congr_right
        constructor
        · rintro ⟨j, hj, hdone, hid⟩
          refine ⟨j, by simpa using hj, ?_, ?_⟩ <;>
            rw [List.getElem_set] <;> split
          · rename_i hij
            subst hij
            rw [hwi] at hdone
            exact hdone
          · exact hdone
          · rename_i hij
            subst hij
            rw [hwi] at hid
            exact hid
          · exact hid
        · rintro ⟨j, hj, hdone, hid⟩
          rw [List.getElem_set] at hdone hid
          by_cases hij : i = j
          · rw [if_pos hij] at hdone hid
            subst hij
            rw [← hwi] at hdone hid
            exact ⟨i, hi, hdone, hid⟩
          · rw [if_neg hij] at hdone hid
            exact ⟨j, by simpa using hj, hdone, hid⟩
      · intro j hj snap' v' hcommit
        rw [List.getElem_set] at hcommit
        by_cases hij : i = j
        · rw [if_pos hij] at hcommit
          subst hij
          rw [← hwi] at hcommit
          exact hsnap i hi snap' v' hcommit
        · rw [if_neg hij] at hcommit
          exact hsnap j (by simpa using hj) snap' v' hcommit
    | failed =>
      have hstep : saveStep s.kv w = (s.kv, w) := by
        unfold saveStep
        rw [hph]
      rw [hstep]
      dsimp only
      refine ⟨writers_set_map_id (by rw [hwi]) |>.trans hmap, hnodup, ?_, ?_⟩
      · intro x
        rw [hmem x]
        apply or_congr_right
        constructor
        · rintro ⟨j, hj, hdone, hid⟩
          refine ⟨j, by simpa using hj, ?_, ?_⟩ <;>
            rw [List.getElem_set] <;> split
          · rename_i hij
            subst hij
            rw [hwi] at hdone
            exact hdone
          · exact hdone
          · rename_i hij
            subst hij
            rw [hwi] at hid
            exact hid
          · exact hid
        · rintro ⟨j, hj, hdone, hid⟩
          rw [List.getElem_set] at hdone hid
          by_cases hij : i = j
          · rw [if_pos hij] at hdone hid
            subst hij
            rw [← hwi] at hdone hid
            exact ⟨i, hi, hdone, hid⟩
          · rw [if_neg hij] at hdone hid
            exact ⟨j, by simpa using hj, hdone, hid⟩
      · intro j hj snap' v' hcommit
        rw [List.getElem_set] at hcommit
        by_cases hij : i = j
        · rw [if_pos hij] at hcommit
          subst hij
          rw [← hwi] at hcommit
          exact hsnap i hi snap' v' hcommit
        · rw [if_neg hij] at hcommit
          exact hsnap j (by simpa using hj) snap' v' hcommit

lemma KVInv_runSchedule (initialIds ids : List String) (s : KVSystem)
    (schedule : List Nat) (h : KVInv initialIds ids s) :
    KVInv initialIds ids (runSchedule s schedule) := by
  induction schedule generalizing s with
  | nil => exact h
  | cons i rest ih => exact ih _ (KVInv_schedStep initialIds ids s i h)

/-- C9 amended: the version-checked commit-and-retry loop never loses or
duplicates an id — for ANY interleaving of N concurrent `saveMember`
calls with distinct fresh ids after which all N calls completed
successfully, the stored id list is duplicate-free and is a permutation
of the initial ids plus the N new ids.  (Success of all N is not itself
guaranteed for every N: each call has a bounded budget of 10
version-check attempts, see the counterexample.) -/
theorem concurrent_saves_preserved (initialIds ids : List String)
    (schedule : List Nat)
    (hinit : initialIds.Nodup) (hids : ids.Nodup)
    (hdisj : ∀ x ∈ ids, x ∉ initialIds)
    (hall : allDone (runSchedule (startSystem initialIds ids) schedule)) :
    (runSchedule (startSystem initialIds ids) schedule).kv.ids.Nodup ∧
    (∀ x, x ∈ (runSchedule (startSystem initialIds ids) schedule).kv.ids ↔
      x ∈ initialIds ∨ x ∈ ids) ∧
    (runSchedule (startSystem initialIds ids) schedule).kv.ids.Perm
      (initialIds ++ ids) := by
  obtain ⟨hmap, hnodup, hmem, -⟩ :=
    KVInv_runSchedule initialIds ids _ schedule
      (KVInv_start initialIds ids hinit)
  have hiff : ∀ x,
      x ∈ (runSchedule (startSystem initialIds ids) schedule).kv.ids ↔
        x ∈ initialIds ∨ x ∈ ids := by
    intro x
    rw [hmem x]
    apply or_congr_right
    constructor
    · rintro ⟨j, hj, -, hid⟩
      have hmm : (runSchedule (startSystem initialIds ids)
            schedule).writers[j].id ∈
          (runSchedule (startSystem initialIds ids) schedule).writers.map
            Writer.id :=
        List.mem_map_of_mem _ (List.getElem_mem _)
      rw [hmap] at hmm
      rw [hid] at hmm
      exact hmm
    · intro hx
      rw [← hmap] at hx
      obtain ⟨w, hw, hwid⟩ := List.mem_map.mp hx
      obtain ⟨j, hj, hjw⟩ := List.mem_iff_getElem.mp hw
      exact ⟨j, hj, by rw [hjw]; exact hall w hw, by rw [hjw]; exact hwid⟩
  have happ : (initialIds ++ ids).Nodup := by
    rw [List.nodup_append]
    exact ⟨hinit, hids, fun a ha ha' => hdisj a ha' ha⟩
  refine ⟨hnodup, hiff, ?_⟩
  rw [List.perm_ext_iff_of_nodup hnodup happ]
  intro a
  rw [hiff a, List.mem_append]

/-- Eleven distinct member ids for the starvation interleaving. -/
def elevenIds : List String :=
  ["a", "b", "c", "d", "e", "f", "g", "h", "i", "j", "k"]

/-- An adversarial interleaving: between every read and commit attempt
of the first call, another call commits, so the first call fails all 10
version checks and exhausts its retry budget. -/
def starveSchedule : List Nat :=
  [0, 1, 1, 0,
   0, 2, 2, 0,
   0, 3, 3, 0,
   0, 4, 4, 0,
   0, 5, 5, 0,
   0, 6, 6, 0,
   0, 7, 7, 0,
   0, 8, 8, 0,
   0, 9, 9, 0,
   0, 10, 10, 0,
   0]

/-- C9 counterexample: eleven concurrent `saveMember` calls with
distinct ids do NOT all succeed under every interleaving — under
`starveSchedule` the first call exhausts its 10 retries (`saveMember`
throws after max retries) and its id is missing from the final state. -/
theorem concurrent_saves_counterexample :
    (∃ w ∈ (runSchedule (startSystem [] elevenIds) starveSchedule).writers,
      w.phase = .failed) ∧
    "a" ∉ (runSchedule (startSystem [] elevenIds) starveSchedule).kv.ids := by
  decide

/-- C9 witness: two concurrent saves of distinct ids, run to completion
sequentially, leave exactly the two ids with no duplicate or loss. -/
theorem concurrent_saves_preserved_witness :
    (runSchedule (startSystem [] ["a", "b"]) [0, 0, 1, 1]).kv.ids.Nodup ∧
    (runSchedule (startSystem [] ["a", "b"]) [0, 0, 1, 1]).kv.ids.Perm
      ([] ++ ["a", "b"]) :=
  ⟨(concurrent_saves_preserved [] ["a", "b"] [0, 0, 1, 1] (by decide)
      (by decide) (by decide) (by unfold allDone; decide)).1,
   (concurrent_saves_preserved [] ["a", "b"] [0, 0, 1, 1] (by decide)
      (by decide) (by decide) (by unfold allDone; decide)).2.2⟩

end Council
